import Mathlib

set_option maxRecDepth 10000

/-!
Shallow embedding of the Agent Runtime Demo server (`src/server.py`).

The Python engine is pure text processing plus a task table and an
artifact directory.  We embed:

* the character classes and scanning semantics of the two `re` patterns
  used by the engine (`^\s*def\s+\w+\(.*\):\n\s+"""` under `re.M` for the
  docstring heuristic, and `^\s*def\s+(\w+)\(` under `re.M` for
  `re.findall`), specialised to these concrete patterns;
* `str.splitlines`, substring containment (`"TODO" in line`) and
  `len(line)`;
* `json.dumps(report, ensure_ascii=False, indent=2)` for the concrete
  report shape, SHA-256 over the UTF-8 bytes of the serialized text;
* `run_task`, `create_task` and `task_status`, with the task table and
  the artifact directory as explicit association lists, and the
  nondeterministic inputs (`uuid4`-based task id, `datetime.utcnow`
  timestamps) as parameters.

Unicode classes: `\s` and the `splitlines` boundary set are embedded in
full; `\w` is embedded as its ASCII fragment `[A-Za-z0-9_]` (Python's
class additionally accepts non-ASCII word characters, which none of the
analysed texts contain).
-/

/-- Python regex class `\s` for `str` patterns (Unicode whitespace set). -/
def pyIsSpace (c : Char) : Bool :=
  let n := c.toNat
  decide (n = 32 ∨ (9 ≤ n ∧ n ≤ 13) ∨ (28 ≤ n ∧ n ≤ 31) ∨ n = 0x85 ∨ n = 0xA0 ∨
    n = 0x1680 ∨ (0x2000 ≤ n ∧ n ≤ 0x200A) ∨ n = 0x2028 ∨ n = 0x2029 ∨
    n = 0x202F ∨ n = 0x205F ∨ n = 0x3000)

/-- ASCII fragment of Python regex class `\w`: `[A-Za-z0-9_]`. -/
def pyIsWord (c : Char) : Bool :=
  let n := c.toNat
  decide ((97 ≤ n ∧ n ≤ 122) ∨ (65 ≤ n ∧ n ≤ 90) ∨ (48 ≤ n ∧ n ≤ 57) ∨ n = 95)

/-- Line-boundary characters of Python `str.splitlines`
(`\n \v \f \r \x1c \x1d \x1e \x85    `; `\r\n` is one boundary). -/
def pyIsLineBreak (c : Char) : Bool :=
  let n := c.toNat
  decide (n = 10 ∨ n = 11 ∨ n = 12 ∨ n = 13 ∨ n = 28 ∨ n = 29 ∨ n = 30 ∨
    n = 0x85 ∨ n = 0x2028 ∨ n = 0x2029)

/-- Worker for `pySplitlines`; `acc` holds the current line reversed. -/
def pySplitlinesAux : List Char → List Char → List (List Char)
  | [], acc => if acc.isEmpty then [] else [acc.reverse]
  | '\r' :: '\n' :: rest, acc => acc.reverse :: pySplitlinesAux rest []
  | c :: rest, acc =>
    if pyIsLineBreak c then acc.reverse :: pySplitlinesAux rest []
    else pySplitlinesAux rest (c :: acc)

/-- Python `str.splitlines()` (no trailing empty line for a final boundary). -/
def pySplitlines (cs : List Char) : List (List Char) := pySplitlinesAux cs []

/-- `listStartsWith p l` : `p` is an initial segment of `l`. -/
def listStartsWith : List Char → List Char → Bool
  | [], _ => true
  | _ :: _, [] => false
  | p :: ps, c :: cs => p == c && listStartsWith ps cs

/-- Python substring containment `pat in l` (empty pattern is contained). -/
def containsSub (pat : List Char) : List Char → Bool
  | [] => listStartsWith pat []
  | c :: rest => listStartsWith pat (c :: rest) || containsSub pat rest

/-- `listEndsWith p l` : `p` is a final segment of `l`. -/
def listEndsWith (p l : List Char) : Bool := listStartsWith p.reverse l.reverse

/-!
### The two `re` patterns

Both patterns are scanned under `re.M`, so a match can only begin at the
start of the text or right after a `'\n'`.  All quantified pieces of the
patterns except `.*` are maximal-munch safe: `\s* def`, `\s+ \w`, `\w+ (`
and `\s+ """` each juxtapose a character class with a first character
that is outside that class, so the greedy run that the engine tries
first is the only run that can succeed.  The `.*` of `.*\):` genuinely
backtracks and is embedded as a search (`matchCloseParen`).
-/

/-- `\s*def` at the current position: drop the (maximal) whitespace run
and consume the literal `def`, returning the remainder. -/
def expectDef (cs : List Char) : Option (List Char) :=
  match cs.dropWhile pyIsSpace with
  | 'd' :: 'e' :: 'f' :: r => some r
  | _ => none

/-- `.*\):\n\s+"""` where `.` does not match `'\n'`: scan the current
line for a `):` immediately followed by the newline and the
whitespace-then-triple-quote continuation, backtracking over `.*`. -/
def matchCloseParen : List Char → Bool
  | ')' :: ':' :: '\n' :: rest =>
    (match rest with
     | c :: rest2 =>
       pyIsSpace c &&
       (match rest2.dropWhile pyIsSpace with
        | '"' :: '"' :: '"' :: _ => true
        | _ => false)
     | [] => false)
    || matchCloseParen (':' :: '\n' :: rest)
  | '\n' :: _ => false
  | [] => false
  | _ :: rest => matchCloseParen rest

/-- One attempt of `^\s*def\s+\w+\(.*\):\n\s+"""` at a position where
`^` holds (start of text or right after a newline). -/
def matchDocAt (cs : List Char) : Bool :=
  match expectDef cs with
  | some r =>
    (match r with
     | c :: _ =>
       pyIsSpace c &&
       (!((r.dropWhile pyIsSpace).takeWhile pyIsWord).isEmpty) &&
       (match (r.dropWhile pyIsSpace).dropWhile pyIsWord with
        | '(' :: rest => matchCloseParen rest
        | _ => false)
     | [] => false)
  | none => false

/-- All suffixes of `cs` that begin right after a `'\n'` (the positions,
other than the start, where `^` matches under `re.M`). -/
def lineStartSuffixes : List Char → List (List Char)
  | [] => []
  | '\n' :: rest => rest :: lineStartSuffixes rest
  | _ :: rest => lineStartSuffixes rest

/-- `re.search(r'^\s*def\s+\w+\(.*\):\n\s+"""', code, re.M)` succeeds. -/
def searchDocstring (cs : List Char) : Bool :=
  matchDocAt cs || (lineStartSuffixes cs).any matchDocAt

/-- One attempt of `^\s*def\s+(\w+)\(` at a `^` position: on success,
the captured identifier and the text after the match. -/
def matchDefName (cs : List Char) : Option (String × List Char) :=
  match expectDef cs with
  | some r =>
    match r with
    | c :: _ =>
      if pyIsSpace c then
        match (r.dropWhile pyIsSpace).dropWhile pyIsWord with
        | '(' :: rest =>
          if ((r.dropWhile pyIsSpace).takeWhile pyIsWord).isEmpty then none
          else some (String.mk ((r.dropWhile pyIsSpace).takeWhile pyIsWord), rest)
        | _ => none
      else none
    | [] => none
  | none => none

/-- Auxiliary length bound: `dropWhile` never lengthens a list. -/
theorem length_dropWhile_le' (p : Char → Bool) (l : List Char) :
    (l.dropWhile p).length ≤ l.length := by
  induction l with
  | nil => simp [List.dropWhile]
  | cons c cs ih =>
    by_cases h : p c
    · simp [List.dropWhile, h]; omega
    · simp [List.dropWhile, h]

theorem expectDef_length {cs r : List Char} (h : expectDef cs = some r) :
    r.length + 3 ≤ cs.length := by
  unfold expectDef at h
  split at h
  next r' heq =>
    cases h
    have h1 := length_dropWhile_le' pyIsSpace cs
    rw [heq] at h1
    simp at h1
    omega
  next => cases h

theorem matchDefName_length {cs : List Char} {nm : String} {rest : List Char}
    (h : matchDefName cs = some (nm, rest)) : rest.length < cs.length := by
  unfold matchDefName at h
  split at h
  next r hr =>
    have hrlen := expectDef_length hr
    split at h
    next c cs' =>
      split at h
      next =>
        split at h
        next rest' heq =>
          split at h
          next => cases h
          next =>
            cases h
            have h1 := length_dropWhile_le' pyIsWord ((c :: cs').dropWhile pyIsSpace)
            have h2 := length_dropWhile_le' pyIsSpace (c :: cs')
            rw [heq] at h1
            have h3 : (c :: cs').length = cs'.length + 1 := rfl
            simp at h1 h2 ⊢
            omega
        next => cases h
      next => cases h
    next => cases h
  next => cases h

/-- `re.findall(r'^\\s*def\\s+(\\w+)\\(', code, re.M)`: left-to-right scan,
matches restricted to `^` positions, non-overlapping continuation after
each match.  `atStart` records whether the current position is a `^`
position.  The extra `fuel` argument only makes the recursion structural
(each step either consumes one character or a nonempty match);
`findDefsFuel_congr` shows the result does not depend on it once it
exceeds the text length, and `findDefs` runs it with fuel
`cs.length + 1`, so the `fuel = 0` case is never reached. -/
def findDefsFuel : Nat → List Char → Bool → List String
  | 0, _, _ => []
  | fuel + 1, cs, atStart =>
    if atStart then
      match matchDefName cs with
      | some (nm, rest) => nm :: findDefsFuel fuel rest false
      | none =>
        match cs with
        | [] => []
        | c :: rest => findDefsFuel fuel rest (c == '\n')
    else
      match cs with
      | [] => []
      | c :: rest => findDefsFuel fuel rest (c == '\n')

theorem findDefsFuel_congr : ∀ (f1 : Nat) (cs : List Char) (f2 : Nat) (b : Bool),
    cs.length < f1 → cs.length < f2 → findDefsFuel f1 cs b = findDefsFuel f2 cs b := by
  intro f1
  induction f1 with
  | zero => intro cs f2 b h1 _; exact absurd h1 (Nat.not_lt_zero _)
  | succ f1 ih =>
    intro cs f2 b h1 h2
    match f2 with
    | 0 => exact absurd h2 (Nat.not_lt_zero _)
    | f2 + 1 =>
      simp only [findDefsFuel]
      match b with
      | true =>
        match hm : matchDefName cs with
        | some (nm, rest) =>
          have hr := matchDefName_length hm
          exact congrArg (fun l => nm :: l) (ih rest f2 false (by omega) (by omega))
        | none =>
          match cs with
          | [] => rfl
          | c :: rest =>
            have hl1 : rest.length < f1 := by simp at h1; omega
            have hl2 : rest.length < f2 := by simp at h2; omega
            exact ih rest f2 (c == '\n') hl1 hl2
      | false =>
        match cs with
        | [] => rfl
        | c :: rest =>
          have hl1 : rest.length < f1 := by simp at h1; omega
          have hl2 : rest.length < f2 := by simp at h2; omega
          exact ih rest f2 (c == '\n') hl1 hl2

/-- The full `re.findall` over a text. -/
def findDefs (cs : List Char) : List String := findDefsFuel (cs.length + 1) cs true

/-!
### Data model (`server.py` pydantic models)

`TaskRequest.inputs` is `Dict[str, Any]`; the engine reads only
`inputs.get("code", "")` and `inputs.get("filename", "unknown.py")`, so
the mapping is embedded as the two optional entries.  The request fields
`context`, `policy` and `callback_url` are never read by the server and
are omitted.  `uuid4`-based task ids and `datetime.utcnow` timestamps
are nondeterministic inputs and become parameters.
-/

namespace Server

structure Inputs where
  code : Option String
  filename : Option String
deriving DecidableEq

structure TaskRequest where
  capability : String
  inputs : Inputs
deriving DecidableEq

inductive FactData where
  | issueData (line : Nat) (message : String)
  | namesData (names : List String)
deriving DecidableEq

structure Fact where
  type : String
  data : FactData
deriving DecidableEq

structure Artifact where
  name : String
  path : String
  sha256 : Option String
deriving DecidableEq

structure Source where
  type : String
  ref : String
deriving DecidableEq

structure TaskResult where
  task_id : String
  status : String
  capability : String
  facts : List Fact
  artifacts : List Artifact
  sources : List Source
  timestamps : List (String × String)
  stable_id : String
  message : Option String
deriving DecidableEq

structure TaskStatus where
  task_id : String
  status : String
  result : Option TaskResult
deriving DecidableEq

structure Capability where
  name : String
  description : String
  inputs_schema : List (String × String)
  policy : String
deriving DecidableEq

def CAPABILITIES : List Capability :=
  [⟨"code_quality",
    "Analyze Python code for rough issues (TODOs, long lines, missing docstrings).",
    [("code", "str"), ("filename", "str")], "safe-readonly"⟩,
   ⟨"summarize_code",
    "Summarize the purpose of a Python file (heuristic).",
    [("code", "str"), ("filename", "str")], "safe-readonly"⟩]

/-- One entry of the report's `issues` list: `{"line": .., "message": ..}`. -/
structure Issue where
  line : Nat
  message : String
deriving DecidableEq

/-- The report dict `{"filename", "issue_count", "issues"}` (insertion order). -/
structure Report where
  filename : String
  issue_count : Nat
  issues : List Issue
deriving DecidableEq

/-!
### `json.dumps(report, ensure_ascii=False, indent=2)`

With `ensure_ascii=False` the serializer escapes only `"`, `\` and
control characters below `0x20` (short escapes for `\b \t \n \f \r`,
`\u00XX` otherwise); with `indent=2` it uses the layout checked against
CPython below, rendering an empty list as `[]`.
-/

def hexDigitChar (n : Nat) : Char :=
  Char.ofNat (if n < 10 then 48 + n else 87 + n)

def jsonEscapeChar (c : Char) : String :=
  if c = '"' then "\\\""
  else if c = '\\' then "\\\\"
  else if c = '\n' then "\\n"
  else if c = '\t' then "\\t"
  else if c = '\r' then "\\r"
  else if c.toNat = 8 then "\\b"
  else if c.toNat = 12 then "\\f"
  else if c.toNat < 32 then
    "\\u00" ++ String.mk [hexDigitChar (c.toNat / 16), hexDigitChar (c.toNat % 16)]
  else String.singleton c

def jsonString (s : String) : String :=
  "\"" ++ String.join (s.data.map jsonEscapeChar) ++ "\""

def issueJson (i : Issue) : String :=
  "    \x7b\n      \"line\": " ++ toString i.line ++
    ",\n      \"message\": " ++ jsonString i.message ++ "\n    \x7d"

def reportJson (r : Report) : String :=
  "\x7b\n  \"filename\": " ++ jsonString r.filename ++
    ",\n  \"issue_count\": " ++ toString r.issue_count ++
    ",\n  \"issues\": " ++
    (if r.issues.isEmpty then "[]"
     else "[\n" ++ String.intercalate ",\n" (r.issues.map issueJson) ++ "\n  ]") ++
    "\n\x7d"

/-!
### SHA-256 (`hashlib.sha256(text.encode("utf-8")).hexdigest()`)

Standard FIPS 180-4 SHA-256 over the UTF-8 bytes, words as `Nat` with
explicit `% 2 ^ 32`.
-/

def utf8Bytes (c : Char) : List Nat :=
  let n := c.toNat
  if n < 128 then [n]
  else if n < 2048 then [192 + n / 64, 128 + n % 64]
  else if n < 65536 then [224 + n / 4096, 128 + n / 64 % 64, 128 + n % 64]
  else [240 + n / 262144, 128 + n / 4096 % 64, 128 + n / 64 % 64, 128 + n % 64]

def strUtf8 (s : String) : List Nat := (s.data.map utf8Bytes).flatten

def rotr32 (x k : Nat) : Nat := x / 2 ^ k + x % 2 ^ k * 2 ^ (32 - k)

def shaCh (x y z : Nat) : Nat := (x &&& y) ^^^ ((x ^^^ 0xFFFFFFFF) &&& z)

def shaMaj (x y z : Nat) : Nat := (x &&& y) ^^^ (x &&& z) ^^^ (y &&& z)

def bigSigma0 (x : Nat) : Nat := rotr32 x 2 ^^^ rotr32 x 13 ^^^ rotr32 x 22

def bigSigma1 (x : Nat) : Nat := rotr32 x 6 ^^^ rotr32 x 11 ^^^ rotr32 x 25

def smallSigma0 (x : Nat) : Nat := rotr32 x 7 ^^^ rotr32 x 18 ^^^ x / 2 ^ 3

def smallSigma1 (x : Nat) : Nat := rotr32 x 17 ^^^ rotr32 x 19 ^^^ x / 2 ^ 10

/-- The 64 SHA-256 round constants of FIPS 180-4 (decimal). -/
def sha256K : List Nat :=
  [1116352408, 1899447441, 3049323471, 3921009573, 961987163,
   1508970993, 2453635748, 2870763221, 3624381080, 310598401,
   607225278, 1426881987, 1925078388, 2162078206, 2614888103,
   3248222580, 3835390401, 4022224774, 264347078, 604807628,
   770255983, 1249150122, 1555081692, 1996064986, 2554220882,
   2821834349, 2952996808, 3210313671, 3336571891, 3584528711,
   113926993, 338241895, 666307205, 773529912, 1294757372,
   1396182291, 1695183700, 1986661051, 2177026350, 2456956037,
   2730485921, 2820302411, 3259730800, 3345764771, 3516065817,
   3600352804, 4094571909, 275423344, 430227734, 506948616,
   659060556, 883997877, 958139571, 1322822218, 1537002063,
   1747873779, 1955562222, 2024104815, 2227730452, 2361852424,
   2428436474, 2756734187, 3204031479, 3329325298]

/-- The eight SHA-256 initial hash words of FIPS 180-4 (decimal). -/
def sha256InitH : List Nat :=
  [1779033703, 3144134277, 1013904242, 2773480762,
   1359893119, 2600822924, 528734635, 1541459225]

def be64 (n : Nat) : List Nat :=
  [n / 2 ^ 56 % 256, n / 2 ^ 48 % 256, n / 2 ^ 40 % 256, n / 2 ^ 32 % 256,
   n / 2 ^ 24 % 256, n / 2 ^ 16 % 256, n / 2 ^ 8 % 256, n % 256]

def sha256Pad (m : List Nat) : List Nat :=
  m ++ 128 :: List.replicate ((120 - (m.length + 1) % 64) % 64) 0 ++ be64 (8 * m.length)

def chunk64 : List Nat → List (List Nat)
  | [] => []
  | b :: rest => ((b :: rest).take 64) :: chunk64 ((b :: rest).drop 64)
termination_by m => m.length
decreasing_by
  simp [List.drop]
  omega

def bytesToWords : List Nat → List Nat
  | b0 :: b1 :: b2 :: b3 :: rest =>
    (((b0 * 256 + b1) * 256 + b2) * 256 + b3) :: bytesToWords rest
  | _ => []

def extendSchedule : List Nat → Nat → List Nat
  | w, 0 => w
  | w, f + 1 =>
    let n := w.length
    extendSchedule
      (w ++ [(smallSigma1 (w.getD (n - 2) 0) + w.getD (n - 7) 0 +
        smallSigma0 (w.getD (n - 15) 0) + w.getD (n - 16) 0) % 2 ^ 32]) f

def sha256Round (st : List Nat) (k w : Nat) : List Nat :=
  match st with
  | [a, b, c, d, e, f, g, h] =>
    let t1 := (h + bigSigma1 e + shaCh e f g + k + w) % 2 ^ 32
    let t2 := (bigSigma0 a + shaMaj a b c) % 2 ^ 32
    [(t1 + t2) % 2 ^ 32, a, b, c, (d + t1) % 2 ^ 32, e, f, g]
  | _ => st

def sha256Compress (h : List Nat) (block : List Nat) : List Nat :=
  let w := extendSchedule (bytesToWords block) 48
  let fin := (sha256K.zip w).foldl (fun s kw => sha256Round s kw.1 kw.2) h
  (h.zip fin).map (fun p => (p.1 + p.2) % 2 ^ 32)

def sha256Words (m : List Nat) : List Nat :=
  (chunk64 (sha256Pad m)).foldl sha256Compress sha256InitH

def toHex8 (n : Nat) : String :=
  String.mk ((List.range 8).map (fun i => hexDigitChar (n / 16 ^ (7 - i) % 16)))

/-- `_sha256` from `server.py`: hex digest of the UTF-8 encoding. -/
def _sha256 (s : String) : String :=
  String.join ((sha256Words (strUtf8 s)).map toHex8)

/-!
### Task engine (`run_task`) and HTTP surface

`ARTIFACT_DIR` is an absolute path derived from the server file's
location at startup; no claim depends on its value and it is embedded as
the literal directory name.  The task table (`TASKS`) and the artifact
directory are explicit association lists with Python-`dict` update
semantics (`dictInsert`: replace in place, else append).
-/

def ARTIFACT_DIR : String := "artifacts"

def artifact_path (name : String) : String := ARTIFACT_DIR ++ "/" ++ name

/-- The per-line loop of `run_task`'s `code_quality` branch, starting at
1-based line number `idx`: a `TODO found` issue for a line containing
`TODO`, then a length issue for a line longer than 100 characters. -/
def lineIssuesFrom : Nat → List (List Char) → List Issue
  | _, [] => []
  | idx, l :: rest =>
    (if containsSub "TODO".data l then [⟨idx, "TODO found"⟩] else []) ++
    (if 100 < l.length then [⟨idx, "Line longer than 100 chars"⟩] else []) ++
    lineIssuesFrom (idx + 1) rest

/-- The `issues` list of the `code_quality` branch: per-line issues,
then the docstring-heuristic issue when the search finds no match. -/
def codeQualityIssues (code : String) : List Issue :=
  lineIssuesFrom 1 (pySplitlines code.data) ++
  (if searchDocstring code.data then []
   else [⟨1, "Functions may lack docstrings (heuristic)"⟩])

/-- The report dict built by the `code_quality` branch. -/
def codeQualityReport (filename : String) (code : String) : Report :=
  ⟨filename, (codeQualityIssues code).length, codeQualityIssues code⟩

/-- `Fact(type="lint_issue", data=i)`. -/
def mkLintFact (i : Issue) : Fact := ⟨"lint_issue", .issueData i.line i.message⟩

/-- `inputs.get("code", "")`. -/
def reqCode (req : TaskRequest) : String := req.inputs.code.getD ""

/-- `inputs.get("filename", "unknown.py")`. -/
def reqFilename (req : TaskRequest) : String := req.inputs.filename.getD "unknown.py"

/-- `run_task`: the computed `TaskResult` together with the list of
file writes `(path, text)` it performs. -/
def run_task (task_id : String) (req : TaskRequest) (queued ended : String) :
    TaskResult × List (String × String) :=
  if req.capability = "code_quality" then
    let code := reqCode req
    let filename := reqFilename req
    let issues := codeQualityIssues code
    let report_json := reportJson (codeQualityReport filename code)
    let name := task_id ++ "_lint_report.json"
    let path := artifact_path name
    (⟨task_id, "SUCCEEDED", req.capability,
      issues.map mkLintFact,
      [⟨name, path, some (_sha256 report_json)⟩],
      [⟨"in_memory_code", filename⟩],
      [("queued", queued), ("ended", ended)],
      "run_" ++ task_id,
      some (toString issues.length ++ " potential issues found.")⟩,
     [(path, report_json)])
  else if req.capability = "summarize_code" then
    let code := reqCode req
    let filename := reqFilename req
    let funcs := findDefs code.data
    (⟨task_id, "SUCCEEDED", req.capability,
      [⟨"functions", .namesData funcs⟩],
      [],
      [⟨"in_memory_code", filename⟩],
      [("queued", queued), ("ended", ended)],
      "run_" ++ task_id,
      some ("This file defines: " ++
        (if funcs.isEmpty then "no functions detected"
         else String.intercalate ", " funcs))⟩,
     [])
  else
    (⟨task_id, "SUCCEEDED", req.capability, [], [], [],
      [("queued", queued), ("ended", ended)],
      "run_" ++ task_id,
      some "Unknown capability"⟩,
     [])

/-- Python `dict` assignment `d[k] = v`: replace in place, else append. -/
def dictInsert {α : Type} : List (String × α) → String → α → List (String × α)
  | [], k, v => [(k, v)]
  | (k1, v1) :: rest, k, v =>
    if k1 = k then (k, v) :: rest else (k1, v1) :: dictInsert rest k v

/-- Python `dict.get`. -/
def dictGet {α : Type} : List (String × α) → String → Option α
  | [], _ => none
  | (k1, v1) :: rest, k => if k1 = k then some v1 else dictGet rest k

/-- Process state: the `TASKS` table and the artifact directory
(path to full file content; `open(path, "w")` truncates). -/
structure ServerState where
  tasks : List (String × TaskStatus)
  files : List (String × String)
deriving DecidableEq

def applyWrites (files : List (String × String)) (ws : List (String × String)) :
    List (String × String) :=
  ws.foldl (fun fs w => dictInsert fs w.1 w.2) files

inductive CreateTaskResp where
  | ok (task_id : String) (status : String)
  | httpError (code : Nat) (detail : String)
deriving DecidableEq

/-- HTTP status code of a `POST /tasks` response (FastAPI default 200). -/
def CreateTaskResp.respCode : CreateTaskResp → Nat
  | .ok _ _ => 200
  | .httpError c _ => c

/-- `req.capability in [c["name"] for c in CAPABILITIES]`. -/
def registeredCapability (name : String) : Bool :=
  (CAPABILITIES.map Capability.name).contains name

/-- `POST /tasks`: validate, record `SCHEDULED`, run synchronously
(performing the artifact writes), overwrite with `SUCCEEDED`.  The
generated `task_id` and the two timestamps are parameters. -/
def create_task (st : ServerState) (req : TaskRequest) (task_id : String)
    (queued ended : String) : CreateTaskResp × ServerState :=
  if registeredCapability req.capability then
    let st1 : ServerState :=
      ⟨dictInsert st.tasks task_id ⟨task_id, "SCHEDULED", none⟩, st.files⟩
    let rw := run_task task_id req queued ended
    let st2 : ServerState := ⟨st1.tasks, applyWrites st1.files rw.2⟩
    let st3 : ServerState :=
      ⟨dictInsert st2.tasks task_id ⟨task_id, "SUCCEEDED", some rw.1⟩, st2.files⟩
    (.ok task_id "SCHEDULED", st3)
  else
    (.httpError 400 "Unknown capability", st)

inductive StatusResp where
  | ok (ts : TaskStatus)
  | httpError (code : Nat) (detail : String)
deriving DecidableEq

def StatusResp.respCode : StatusResp → Nat
  | .ok _ => 200
  | .httpError c _ => c

/-- `GET /tasks/{task_id}` (pure lookup; returns the state unchanged). -/
def task_status (st : ServerState) (task_id : String) : StatusResp × ServerState :=
  match dictGet st.tasks task_id with
  | none => (.httpError 404 "Task not found", st)
  | some t => (.ok t, st)

/-!
### Helper notions and lemmas for the claims
-/

/-- The issue the docstring heuristic appends. -/
def docstringIssue : Issue := ⟨1, "Functions may lack docstrings (heuristic)"⟩

def docstringFact : Fact := mkLintFact docstringIssue

def todoFact (i : Nat) : Fact := ⟨"lint_issue", .issueData i "TODO found"⟩

def longLineFact (i : Nat) : Fact := ⟨"lint_issue", .issueData i "Line longer than 100 chars"⟩

/-- The two per-line issues of one 1-indexed line, in extraction order. -/
def specLineIssues (i : Nat) (l : List Char) : List Issue :=
  (if containsSub "TODO".data l then [⟨i, "TODO found"⟩] else []) ++
  (if 100 < l.length then [⟨i, "Line longer than 100 chars"⟩] else [])

/-- Number of occurrences of `a` in `l`. -/
def countEq {α : Type} [DecidableEq α] (a : α) (l : List α) : Nat :=
  (l.filter (fun x => decide (x = a))).length

theorem countEq_append {α : Type} [DecidableEq α] (a : α) (l1 l2 : List α) :
    countEq a (l1 ++ l2) = countEq a l1 + countEq a l2 := by
  simp [countEq, List.filter_append]

theorem countEq_cons {α : Type} [DecidableEq α] (a b : α) (l : List α) :
    countEq a (b :: l) = (if b = a then 1 else 0) + countEq a l := by
  by_cases h : b = a <;> simp [countEq, List.filter_cons, h, Nat.add_comm]

theorem countEq_singleton {α : Type} [DecidableEq α] (a b : α) :
    countEq a [b] = if b = a then 1 else 0 := by
  rw [countEq_cons]; rfl

theorem countEq_map {α β : Type} [DecidableEq α] [DecidableEq β] (f : α → β)
    (hf : ∀ x y, f x = f y → x = y) (a : α) (l : List α) :
    countEq (f a) (l.map f) = countEq a l := by
  induction l with
  | nil => rfl
  | cons b t ih =>
    rw [List.map_cons, countEq_cons, countEq_cons, ih]
    by_cases h : b = a
    · simp [h]
    · have : ¬ f b = f a := fun hc => h (hf _ _ hc)
      simp [h, this]

theorem mkLintFact_inj (x y : Issue) (h : mkLintFact x = mkLintFact y) : x = y := by
  cases x; cases y
  simp [mkLintFact] at h
  simp [h]

/-- Every issue produced by the per-line loop carries one of the two
per-line messages, so counts of issues with any other message are 0. -/
theorem lineIssuesFrom_count_other (ls : List (List Char)) (s i : Nat) (m : String)
    (hm1 : m ≠ "TODO found") (hm2 : m ≠ "Line longer than 100 chars") :
    countEq (⟨i, m⟩ : Issue) (lineIssuesFrom s ls) = 0 := by
  induction ls generalizing s with
  | nil => rfl
  | cons l rest ih =>
    rw [lineIssuesFrom, countEq_append, countEq_append, ih (s + 1)]
    have c1 : countEq (⟨i, m⟩ : Issue)
        (if containsSub "TODO".data l then [⟨s, "TODO found"⟩] else []) = 0 := by
      split
      · rw [countEq_singleton]
        simp [Issue.mk.injEq]
        intro _ h
        exact absurd h.symm hm1
      · rfl
    have c2 : countEq (⟨i, m⟩ : Issue)
        (if 100 < l.length then [⟨s, "Line longer than 100 chars"⟩] else []) = 0 := by
      split
      · rw [countEq_singleton]
        simp [Issue.mk.injEq]
        intro _ h
        exact absurd h.symm hm2
      · rfl
    rw [c1, c2]

/-- Issues produced from line number `s` on have line numbers `≥ s`. -/
theorem lineIssuesFrom_count_lt (ls : List (List Char)) (s i : Nat) (m : String)
    (h : i < s) : countEq (⟨i, m⟩ : Issue) (lineIssuesFrom s ls) = 0 := by
  induction ls generalizing s with
  | nil => rfl
  | cons l rest ih =>
    rw [lineIssuesFrom, countEq_append, countEq_append, ih (s + 1) (by omega)]
    have hne : s ≠ i := by omega
    have c1 : countEq (⟨i, m⟩ : Issue)
        (if containsSub "TODO".data l then [⟨s, "TODO found"⟩] else []) = 0 := by
      split
      · rw [countEq_singleton]; simp [Issue.mk.injEq]; intro h; exact absurd h hne
      · rfl
    have c2 : countEq (⟨i, m⟩ : Issue)
        (if 100 < l.length then [⟨s, "Line longer than 100 chars"⟩] else []) = 0 := by
      split
      · rw [countEq_singleton]; simp [Issue.mk.injEq]; intro h; exact absurd h hne
      · rfl
    rw [c1, c2]

theorem msg_LT : ("Line longer than 100 chars" : String) ≠ "TODO found" := by decide

theorem msg_TL : ("TODO found" : String) ≠ "Line longer than 100 chars" := by decide

theorem countEq_nil {α : Type} [DecidableEq α] (a : α) : countEq a ([] : List α) = 0 := rfl

/-- Exact per-line counts of the per-line loop. -/
theorem lineIssuesFrom_count_at (ls : List (List Char)) (s j : Nat) (h : j < ls.length) :
    countEq (⟨s + j, "TODO found"⟩ : Issue) (lineIssuesFrom s ls) =
      (if containsSub "TODO".data (ls.getD j []) then 1 else 0) ∧
    countEq (⟨s + j, "Line longer than 100 chars"⟩ : Issue) (lineIssuesFrom s ls) =
      (if 100 < (ls.getD j []).length then 1 else 0) := by
  induction ls generalizing s j with
  | nil => simp at h
  | cons l rest ih =>
    match j with
    | 0 =>
      have hg : ((l :: rest).getD 0 []) = l := rfl
      have hz : s + 0 = s := rfl
      rw [lineIssuesFrom, hg, hz]
      refine ⟨?_, ?_⟩
      · rw [countEq_append, countEq_append,
          lineIssuesFrom_count_lt rest (s + 1) s _ (by omega)]
        by_cases hc : containsSub "TODO".data l <;> by_cases hl : 100 < l.length <;>
          simp [hc, hl, countEq_singleton, countEq_nil, Issue.mk.injEq, msg_LT]
      · rw [countEq_append, countEq_append,
          lineIssuesFrom_count_lt rest (s + 1) s _ (by omega)]
        by_cases hc : containsSub "TODO".data l <;> by_cases hl : 100 < l.length <;>
          simp [hc, hl, countEq_singleton, countEq_nil, Issue.mk.injEq, msg_TL]
    | j' + 1 =>
      have hlen : j' < rest.length := by simp at h; omega
      have hg : ((l :: rest).getD (j' + 1) []) = rest.getD j' [] := rfl
      have hs : s + (j' + 1) = (s + 1) + j' := by omega
      have hIH := ih (s + 1) j' hlen
      have hne : s ≠ s + 1 + j' := by omega
      rw [lineIssuesFrom, hg, hs]
      refine ⟨?_, ?_⟩
      · rw [countEq_append, countEq_append, hIH.1]
        by_cases hc : containsSub "TODO".data l <;> by_cases hl : 100 < l.length <;>
          simp [hc, hl, countEq_singleton, countEq_nil, Issue.mk.injEq, hne, msg_LT]
      · rw [countEq_append, countEq_append, hIH.2]
        by_cases hc : containsSub "TODO".data l <;> by_cases hl : 100 < l.length <;>
          simp [hc, hl, countEq_singleton, countEq_nil, Issue.mk.injEq, hne, msg_TL]

/-- The per-line loop is the in-order concatenation of the per-line
issue lists over the 1-indexed enumeration of the lines. -/
theorem lineIssuesFrom_eq_enum (ls : List (List Char)) (s : Nat) :
    lineIssuesFrom s ls =
      (List.enumFrom s ls).flatMap (fun p => specLineIssues p.1 p.2) := by
  induction ls generalizing s with
  | nil => rfl
  | cons l rest ih =>
    rw [lineIssuesFrom, List.enumFrom]
    simp only [List.flatMap_cons]
    rw [← ih (s + 1), specLineIssues, List.append_assoc]

theorem dictGet_insert_self {α : Type} (l : List (String × α)) (k : String) (v : α) :
    dictGet (dictInsert l k v) k = some v := by
  induction l with
  | nil => simp [dictInsert, dictGet]
  | cons p rest ih =>
    obtain ⟨k1, v1⟩ := p
    by_cases h : k1 = k
    · simp [dictInsert, h, dictGet]
    · simp [dictInsert, h, dictGet, ih]

theorem dictGet_insert_ne {α : Type} (l : List (String × α)) (k k' : String) (v : α)
    (h : k' ≠ k) : dictGet (dictInsert l k v) k' = dictGet l k' := by
  have hk : k ≠ k' := fun hc => h hc.symm
  induction l with
  | nil => simp [dictInsert, dictGet, hk]
  | cons p rest ih =>
    obtain ⟨k1, v1⟩ := p
    by_cases hp : k1 = k
    · subst hp
      simp [dictInsert, dictGet, hk]
    · by_cases hk1 : k1 = k'
      · simp [dictInsert, dictGet, hp, hk1, h]
      · simp [dictInsert, dictGet, hp, hk1, ih]

theorem dictGet_insert_isSome {α : Type} (l : List (String × α)) (k k' : String) (v : α)
    (h : (dictGet l k').isSome) : (dictGet (dictInsert l k v) k').isSome := by
  by_cases hk : k' = k
  · subst hk
    rw [dictGet_insert_self]
    rfl
  · rwa [dictGet_insert_ne _ _ _ _ hk]

/-- The registry contains exactly the two capability names. -/
theorem registeredCapability_iff (c : String) :
    registeredCapability c = true ↔ c = "code_quality" ∨ c = "summarize_code" := by
  constructor
  · intro h
    simp [registeredCapability, CAPABILITIES, List.contains] at h
    rcases h with h | h <;> simp [← h]
  · intro h
    rcases h with h | h <;> subst h <;> decide

/-- The `code_quality` branch of `run_task`, written out. -/
theorem run_task_code_quality (req : TaskRequest) (tid q e : String)
    (h : req.capability = "code_quality") :
    run_task tid req q e =
      (⟨tid, "SUCCEEDED", req.capability,
        (codeQualityIssues (reqCode req)).map mkLintFact,
        [⟨tid ++ "_lint_report.json", artifact_path (tid ++ "_lint_report.json"),
          some (_sha256 (reportJson (codeQualityReport (reqFilename req) (reqCode req))))⟩],
        [⟨"in_memory_code", reqFilename req⟩],
        [("queued", q), ("ended", e)],
        "run_" ++ tid,
        some (toString (codeQualityIssues (reqCode req)).length ++ " potential issues found.")⟩,
       [(artifact_path (tid ++ "_lint_report.json"),
         reportJson (codeQualityReport (reqFilename req) (reqCode req)))]) := by
  rw [run_task, if_pos h]

/-- The `summarize_code` branch of `run_task`, written out. -/
theorem run_task_summarize (req : TaskRequest) (tid q e : String)
    (h : req.capability = "summarize_code") :
    run_task tid req q e =
      (⟨tid, "SUCCEEDED", req.capability,
        [⟨"functions", .namesData (findDefs (reqCode req).data)⟩],
        [],
        [⟨"in_memory_code", reqFilename req⟩],
        [("queued", q), ("ended", e)],
        "run_" ++ tid,
        some ("This file defines: " ++
          (if (findDefs (reqCode req).data).isEmpty then "no functions detected"
           else String.intercalate ", " (findDefs (reqCode req).data)))⟩,
       []) := by
  rw [run_task, if_neg (by rw [h]; decide), if_pos h]

/-- `run_task` always reports success, whatever the capability. -/
theorem run_task_status (req : TaskRequest) (tid q e : String) :
    (run_task tid req q e).1.status = "SUCCEEDED" := by
  rw [run_task]
  split
  · rfl
  · split <;> rfl

theorem run_task_stable_id (req : TaskRequest) (tid q e : String) :
    (run_task tid req q e).1.stable_id = "run_" ++ tid := by
  rw [run_task]
  split
  · rfl
  · split <;> rfl

/-- The validated branch of `create_task`, written out. -/
theorem create_task_registered (st : ServerState) (req : TaskRequest) (tid q e : String)
    (h : registeredCapability req.capability = true) :
    create_task st req tid q e =
      (.ok tid "SCHEDULED",
       ⟨dictInsert (dictInsert st.tasks tid ⟨tid, "SCHEDULED", none⟩) tid
          ⟨tid, "SUCCEEDED", some (run_task tid req q e).1⟩,
        applyWrites st.files (run_task tid req q e).2⟩) := by
  rw [create_task, if_pos h]

/-!
### Concrete inputs used by counterexamples and witnesses
-/

/-- Spec scenario: one line containing `TODO`, no functions. -/
def c2Req : TaskRequest := ⟨"code_quality", ⟨some "x = 1  # TODO fix\n", some "example.py"⟩⟩

def c3Req : TaskRequest := ⟨"code_quality", ⟨some "TODO TODO\nok\n", some "w.py"⟩⟩

def c4Code : String := "def foo():\n    pass\ndef bar():\n    pass\n"

def c4Req : TaskRequest := ⟨"summarize_code", ⟨some c4Code, some "example.py"⟩⟩

def c4DupCode : String := "def foo():\n    pass\ndef foo():\n    pass\n"

/-- A function whose docstring is separated from its `def` line by a blank line. -/
def c1Code : String := "def f():\n\n    \"\"\"doc\"\"\"\n"

def c1Req : TaskRequest := ⟨"code_quality", ⟨some c1Code, some "a.py"⟩⟩

/-- A `code_quality` request whose inputs lack both keys. -/
def c10Req : TaskRequest := ⟨"code_quality", ⟨none, none⟩⟩

def badCapReq : TaskRequest := ⟨"bogus", ⟨none, none⟩⟩

/-- Claim C1's own description of a function line: optional whitespace,
`def `, an identifier, `(`, anything, then `):` ending the line. -/
def specIsDefLine (l : List Char) : Bool :=
  match l.dropWhile pyIsSpace with
  | 'd' :: 'e' :: 'f' :: ' ' :: r =>
    (!(r.takeWhile pyIsWord).isEmpty) &&
    (match r.dropWhile pyIsWord with
     | '(' :: rest => listEndsWith [')', ':'] rest
     | _ => false)
  | _ => false

/-- The docstring-heuristic fact count of a `code_quality` run is 1 when
the pattern finds no match and 0 when it matches. -/
theorem countEq_docstring (code : String) :
    countEq docstringFact ((codeQualityIssues code).map mkLintFact) =
      if searchDocstring code.data then 0 else 1 := by
  have h1 : countEq docstringFact ((codeQualityIssues code).map mkLintFact) =
      countEq docstringIssue (codeQualityIssues code) :=
    countEq_map mkLintFact mkLintFact_inj docstringIssue (codeQualityIssues code)
  rw [h1, codeQualityIssues, countEq_append]
  have h2 : countEq docstringIssue (lineIssuesFrom 1 (pySplitlines code.data)) = 0 :=
    lineIssuesFrom_count_other (pySplitlines code.data) 1 1
      "Functions may lack docstrings (heuristic)" (by decide) (by decide)
  rw [h2]
  by_cases hs : searchDocstring code.data
  · simp [hs, countEq_nil]
  · simp [hs, countEq_singleton, docstringIssue]

/-- The docstring chunk contributes nothing to per-line fact counts. -/
theorem countEq_docChunk (code : String) (i : Nat) (m : String)
    (hm : "Functions may lack docstrings (heuristic)" ≠ m) :
    countEq (⟨i, m⟩ : Issue)
      (if searchDocstring code.data then []
       else [⟨1, "Functions may lack docstrings (heuristic)"⟩]) = 0 := by
  by_cases hs : searchDocstring code.data
  · rw [if_pos hs]; rfl
  · rw [if_neg hs, countEq_singleton, if_neg]
    intro hc
    rw [Issue.mk.injEq] at hc
    exact hm hc.2

/-!
### The claims
-/

/-- Claim C7: a `POST /tasks` with an unregistered capability yields
400 `{"detail": "Unknown capability"}` and leaves the task table and the
artifact storage exactly as before; a registered capability yields a
200 response. -/
theorem claim_C7 (st : ServerState) (req : TaskRequest) (tid q e : String) :
    (registeredCapability req.capability = false →
      create_task st req tid q e = (.httpError 400 "Unknown capability", st)) ∧
    (registeredCapability req.capability = true →
      (create_task st req tid q e).1.respCode = 200) := by
  constructor
  · intro h
    rw [create_task, if_neg (by rw [h]; exact fun hc => Bool.noConfusion hc)]
  · intro h
    rw [create_task_registered st req tid q e h]
    rfl

/-- Claim C7 witness: the unknown capability `"bogus"` on the empty
state is rejected with 400 and no state change. -/
theorem claim_C7_witness :
    create_task ⟨[], []⟩ badCapReq "t-7" "q" "e" =
      (.httpError 400 "Unknown capability", ⟨[], []⟩) :=
  (claim_C7 ⟨[], []⟩ badCapReq "t-7" "q" "e").1 (by decide)

/-- Claim C8: a successful submit answers `{"task_id": tid, "status":
"SCHEDULED"}` without the result, while the stored record under the same
key is already `SUCCEEDED` with a populated result whose status is
`SUCCEEDED` and whose stable id is `"run_" + task_id`; the `SCHEDULED`
record is overwritten under the same key and no stored record is ever
deleted. -/
theorem claim_C8 (st : ServerState) (req : TaskRequest) (tid q e : String)
    (h : registeredCapability req.capability = true) :
    (create_task st req tid q e).1 = .ok tid "SCHEDULED" ∧
    dictGet (create_task st req tid q e).2.tasks tid =
      some ⟨tid, "SUCCEEDED", some (run_task tid req q e).1⟩ ∧
    (run_task tid req q e).1.status = "SUCCEEDED" ∧
    (run_task tid req q e).1.stable_id = "run_" ++ tid ∧
    (create_task st req tid q e).2.tasks =
      dictInsert (dictInsert st.tasks tid ⟨tid, "SCHEDULED", none⟩) tid
        ⟨tid, "SUCCEEDED", some (run_task tid req q e).1⟩ ∧
    dictGet (dictInsert st.tasks tid ⟨tid, "SCHEDULED", none⟩) tid =
      some ⟨tid, "SCHEDULED", none⟩ ∧
    (∀ k, (dictGet st.tasks k).isSome →
      (dictGet (create_task st req tid q e).2.tasks k).isSome) := by
  rw [create_task_registered st req tid q e h]
  refine ⟨rfl, dictGet_insert_self _ _ _, run_task_status req tid q e,
    run_task_stable_id req tid q e, rfl, dictGet_insert_self _ _ _, ?_⟩
  intro k hk
  exact dictGet_insert_isSome _ _ _ _ (dictGet_insert_isSome _ _ _ _ hk)

/-- Claim C8 witness at a concrete request on the empty state. -/
theorem claim_C8_witness :
    (create_task ⟨[], []⟩ ⟨"summarize_code", ⟨none, none⟩⟩ "t-8" "q" "e").1 =
      .ok "t-8" "SCHEDULED" :=
  (claim_C8 ⟨[], []⟩ ⟨"summarize_code", ⟨none, none⟩⟩ "t-8" "q" "e" (by decide)).1

/-- Claim C9: polling an id that was never stored answers 404
`{"detail": "Task not found"}` and leaves the state untouched; polling a
stored id answers 200 with the full stored record. -/
theorem claim_C9 (st : ServerState) (tid : String) :
    (dictGet st.tasks tid = none →
      task_status st tid = (.httpError 404 "Task not found", st)) ∧
    (∀ t, dictGet st.tasks tid = some t →
      task_status st tid = (.ok t, st) ∧ (StatusResp.ok t).respCode = 200) := by
  constructor
  · intro h
    simp [task_status, h]
  · intro t h
    simp [task_status, h, StatusResp.respCode]

/-- Claim C9 witness: an id never issued (`t-deadbeef`) on the empty
state yields the 404 error. -/
theorem claim_C9_witness :
    task_status ⟨[], []⟩ "t-deadbeef" = (.httpError 404 "Task not found", ⟨[], []⟩) :=
  (claim_C9 ⟨[], []⟩ "t-deadbeef").1 rfl

/-- Claim C2: a `code_quality` run emits the docstring-heuristic fact
`{type: lint_issue, data: {line: 1, message: "Functions may lack
docstrings (heuristic)"}}` exactly once iff the docstring pattern finds
zero matches (in particular when the code has no functions at all), and
the spec scenario `"x = 1  # TODO fix\n"` yields exactly the TODO fact
and the docstring fact with message `"2 potential issues found."`. -/
theorem claim_C2 (req : TaskRequest) (tid q e : String)
    (h : req.capability = "code_quality") :
    (countEq docstringFact (run_task tid req q e).1.facts =
      if searchDocstring (reqCode req).data then 0 else 1) ∧
    (run_task "t-2" c2Req "q" "e").1.facts = [todoFact 1, docstringFact] ∧
    (run_task "t-2" c2Req "q" "e").1.message = some "2 potential issues found." := by
  refine ⟨?_, by decide, by decide⟩
  rw [run_task_code_quality req tid q e h]
  exact countEq_docstring (reqCode req)

/-- Claim C2 witness at the spec scenario request. -/
theorem claim_C2_witness :
    countEq docstringFact (run_task "t-2w" c2Req "q" "e").1.facts = 1 := by
  have h1 := (claim_C2 c2Req "t-2w" "q" "e" rfl).1
  rw [if_neg (by decide)] at h1
  exact h1

/-- Claim C3: the per-line facts of a `code_quality` run are exactly, in
extraction order over the 1-indexed lines (TODO fact before length fact
on the same line), one `TODO found` fact per line containing `TODO` and
one `Line longer than 100 chars` fact per line longer than 100
characters, followed only by the optional docstring fact; the counts per
line are exactly one or zero. -/
theorem claim_C3 (req : TaskRequest) (tid q e : String)
    (h : req.capability = "code_quality") :
    ((run_task tid req q e).1.facts =
      ((List.enumFrom 1 (pySplitlines (reqCode req).data)).flatMap
        (fun p => specLineIssues p.1 p.2)).map mkLintFact ++
      (if searchDocstring (reqCode req).data then [] else [docstringFact])) ∧
    (∀ j, j < (pySplitlines (reqCode req).data).length →
      (countEq (todoFact (1 + j)) (run_task tid req q e).1.facts =
        if containsSub "TODO".data ((pySplitlines (reqCode req).data).getD j [])
        then 1 else 0) ∧
      (countEq (longLineFact (1 + j)) (run_task tid req q e).1.facts =
        if 100 < ((pySplitlines (reqCode req).data).getD j []).length
        then 1 else 0)) := by
  rw [run_task_code_quality req tid q e h]
  constructor
  · show (codeQualityIssues (reqCode req)).map mkLintFact = _
    rw [codeQualityIssues, List.map_append, lineIssuesFrom_eq_enum]
    by_cases hs : searchDocstring (reqCode req).data <;>
      simp [hs, docstringFact, docstringIssue, mkLintFact]
  · intro j hj
    constructor
    · show countEq (todoFact (1 + j)) ((codeQualityIssues (reqCode req)).map mkLintFact) = _
      have e1 : countEq (todoFact (1 + j)) ((codeQualityIssues (reqCode req)).map mkLintFact) =
          countEq (⟨1 + j, "TODO found"⟩ : Issue) (codeQualityIssues (reqCode req)) :=
        countEq_map mkLintFact mkLintFact_inj ⟨1 + j, "TODO found"⟩
          (codeQualityIssues (reqCode req))
      rw [e1, codeQualityIssues, countEq_append,
        (lineIssuesFrom_count_at (pySplitlines (reqCode req).data) 1 j hj).1,
        countEq_docChunk (reqCode req) (1 + j) "TODO found" (by decide), Nat.add_zero]
    · show countEq (longLineFact (1 + j)) ((codeQualityIssues (reqCode req)).map mkLintFact) = _
      have e1 : countEq (longLineFact (1 + j)) ((codeQualityIssues (reqCode req)).map mkLintFact) =
          countEq (⟨1 + j, "Line longer than 100 chars"⟩ : Issue)
            (codeQualityIssues (reqCode req)) :=
        countEq_map mkLintFact mkLintFact_inj ⟨1 + j, "Line longer than 100 chars"⟩
          (codeQualityIssues (reqCode req))
      rw [e1, codeQualityIssues, countEq_append,
        (lineIssuesFrom_count_at (pySplitlines (reqCode req).data) 1 j hj).2,
        countEq_docChunk (reqCode req) (1 + j) "Line longer than 100 chars" (by decide),
        Nat.add_zero]

/-- Claim C3 witness: the line `TODO TODO` yields exactly one TODO fact. -/
theorem claim_C3_witness :
    countEq (todoFact 1) (run_task "t-3" c3Req "q" "e").1.facts = 1 := by
  have h1 := ((claim_C3 c3Req "t-3" "q" "e" rfl).2 0 (by decide)).1
  rw [if_pos (by decide)] at h1
  exact h1

/-- Claim C4: a `summarize_code` run emits exactly one `functions` fact
whose names are the identifiers of the `def` occurrences in order with
duplicates preserved, an empty artifacts list, and the message
`"This file defines: "` + the comma-space-joined names (or
`"This file defines: no functions detected"` when there are none); the
spec scenario yields `["foo", "bar"]`. -/
theorem claim_C4 (req : TaskRequest) (tid q e : String)
    (h : req.capability = "summarize_code") :
    ((run_task tid req q e).1.facts =
      [⟨"functions", .namesData (findDefs (reqCode req).data)⟩]) ∧
    (run_task tid req q e).1.artifacts = [] ∧
    ((run_task tid req q e).1.message =
      some (if findDefs (reqCode req).data = []
        then "This file defines: no functions detected"
        else "This file defines: " ++
          String.intercalate ", " (findDefs (reqCode req).data))) ∧
    findDefs c4Code.data = ["foo", "bar"] ∧
    (run_task "t-4" c4Req "q" "e").1.message = some "This file defines: foo, bar" ∧
    findDefs c4DupCode.data = ["foo", "foo"] := by
  rw [run_task_summarize req tid q e h]
  refine ⟨rfl, rfl, ?_, by decide, by decide, by decide⟩
  show some ("This file defines: " ++ _) = _
  by_cases hf : findDefs (reqCode req).data = []
  · rw [hf]
    rfl
  · rw [if_neg hf]
    have : (findDefs (reqCode req).data).isEmpty = false := by
      cases hx : findDefs (reqCode req).data
      · exact absurd hx hf
      · rfl
    rw [this, if_neg (by exact fun hc => Bool.noConfusion hc)]

/-- Claim C4 witness at the spec scenario request. -/
theorem claim_C4_witness :
    (run_task "t-4w" c4Req "q" "e").1.facts =
      [⟨"functions", .namesData (findDefs (reqCode c4Req).data)⟩] :=
  (claim_C4 c4Req "t-4w" "q" "e" rfl).1

/-- Claim C5: for a `code_quality` run the report satisfies
`issue_count = len(issues)`, the facts are the issues in the same order
with the same data, `len(facts) = issue_count`, the report is what gets
persisted, and the message is `"{issue_count} potential issues
found."`. -/
theorem claim_C5 (req : TaskRequest) (tid q e : String)
    (h : req.capability = "code_quality") :
    ((codeQualityReport (reqFilename req) (reqCode req)).issue_count =
      (codeQualityReport (reqFilename req) (reqCode req)).issues.length) ∧
    ((run_task tid req q e).1.facts =
      (codeQualityReport (reqFilename req) (reqCode req)).issues.map mkLintFact) ∧
    ((run_task tid req q e).1.facts.length =
      (codeQualityReport (reqFilename req) (reqCode req)).issue_count) ∧
    ((run_task tid req q e).2 =
      [(artifact_path (tid ++ "_lint_report.json"),
        reportJson (codeQualityReport (reqFilename req) (reqCode req)))]) ∧
    ((run_task tid req q e).1.message =
      some (toString (codeQualityReport (reqFilename req) (reqCode req)).issue_count ++
        " potential issues found.")) := by
  rw [run_task_code_quality req tid q e h]
  refine ⟨rfl, rfl, ?_, rfl, rfl⟩
  show ((codeQualityIssues (reqCode req)).map mkLintFact).length = _
  rw [List.length_map]
  rfl

/-- Claim C5 witness at the spec scenario request. -/
theorem claim_C5_witness :
    (run_task "t-5" c2Req "q" "e").1.message =
      some (toString (codeQualityReport (reqFilename c2Req) (reqCode c2Req)).issue_count ++
        " potential issues found.") :=
  (claim_C5 c2Req "t-5" "q" "e" rfl).2.2.2.2

/-- Claim C6: a `code_quality` run produces exactly one artifact, named
`{task_id}_lint_report.json` under the artifact storage root, whose
recorded sha256 is the digest of exactly the serialized report text
written at that path, so the digest of the stored file content equals
the recorded digest. -/
theorem claim_C6 (st : ServerState) (req : TaskRequest) (tid q e : String)
    (h : req.capability = "code_quality") :
    ((run_task tid req q e).1.artifacts =
      [⟨tid ++ "_lint_report.json", artifact_path (tid ++ "_lint_report.json"),
        some (_sha256 (reportJson (codeQualityReport (reqFilename req) (reqCode req))))⟩]) ∧
    ((run_task tid req q e).2 =
      [(artifact_path (tid ++ "_lint_report.json"),
        reportJson (codeQualityReport (reqFilename req) (reqCode req)))]) ∧
    (dictGet (create_task st req tid q e).2.files
        (artifact_path (tid ++ "_lint_report.json")) =
      some (reportJson (codeQualityReport (reqFilename req) (reqCode req)))) ∧
    (∀ a ∈ (run_task tid req q e).1.artifacts, ∀ content,
      dictGet (create_task st req tid q e).2.files a.path = some content →
      a.sha256 = some (_sha256 content)) := by
  have hreg : registeredCapability req.capability = true :=
    (registeredCapability_iff req.capability).mpr (Or.inl h)
  rw [create_task_registered st req tid q e hreg, run_task_code_quality req tid q e h]
  have hget : dictGet
      (applyWrites st.files [(artifact_path (tid ++ "_lint_report.json"),
        reportJson (codeQualityReport (reqFilename req) (reqCode req)))])
      (artifact_path (tid ++ "_lint_report.json")) =
      some (reportJson (codeQualityReport (reqFilename req) (reqCode req))) :=
    dictGet_insert_self st.files _ _
  refine ⟨rfl, rfl, hget, ?_⟩
  intro a ha content hc
  rw [List.mem_singleton] at ha
  subst ha
  rw [hget] at hc
  cases hc
  rfl

/-- Claim C6 witness at the spec scenario request on the empty state. -/
theorem claim_C6_witness :
    dictGet (create_task ⟨[], []⟩ c2Req "t-6" "q" "e").2.files
        (artifact_path ("t-6" ++ "_lint_report.json")) =
      some (reportJson (codeQualityReport (reqFilename c2Req) (reqCode c2Req))) :=
  (claim_C6 ⟨[], []⟩ c2Req "t-6" "q" "e" rfl).2.2.1

/-- Claim C10: a registered submission whose inputs lack the `code` or
`filename` key still succeeds with status `SUCCEEDED`: the missing code
behaves exactly like the explicit empty string and the missing filename
exactly like `"unknown.py"`; `code_quality` on empty inputs yields
exactly the docstring-heuristic fact and persists a report with filename
`"unknown.py"`. -/
theorem claim_C10 (req : TaskRequest) (tid q e : String)
    (h : registeredCapability req.capability = true) :
    (run_task tid req q e).1.status = "SUCCEEDED" ∧
    (req.inputs.code = none →
      run_task tid req q e =
        run_task tid ⟨req.capability, ⟨some "", req.inputs.filename⟩⟩ q e) ∧
    (req.inputs.filename = none →
      run_task tid req q e =
        run_task tid ⟨req.capability, ⟨req.inputs.code, some "unknown.py"⟩⟩ q e) ∧
    codeQualityIssues "" = [docstringIssue] ∧
    (run_task tid c10Req q e).1.facts = [docstringFact] ∧
    codeQualityReport "unknown.py" "" = ⟨"unknown.py", 1, [docstringIssue]⟩ ∧
    (run_task tid c10Req q e).2 =
      [(artifact_path (tid ++ "_lint_report.json"),
        reportJson ⟨"unknown.py", 1, [docstringIssue]⟩)] := by
  obtain ⟨cap, ⟨c, f⟩⟩ := req
  have hcases := (registeredCapability_iff cap).mp h
  refine ⟨run_task_status _ tid q e, ?_, ?_, by decide, ?_, by decide, ?_⟩
  · intro hc
    simp only at hc
    subst hc
    rcases hcases with hcap | hcap <;> subst hcap <;> rfl
  · intro hf
    simp only at hf
    subst hf
    rcases hcases with hcap | hcap <;> subst hcap <;> rfl
  · rw [run_task_code_quality c10Req tid q e rfl]
    show (codeQualityIssues (reqCode c10Req)).map mkLintFact = _
    have : codeQualityIssues (reqCode c10Req) = [docstringIssue] := by decide
    rw [this]
    rfl
  · rw [run_task_code_quality c10Req tid q e rfl]
    show [(artifact_path (tid ++ "_lint_report.json"),
      reportJson (codeQualityReport (reqFilename c10Req) (reqCode c10Req)))] = _
    have : codeQualityReport (reqFilename c10Req) (reqCode c10Req) =
        ⟨"unknown.py", 1, [docstringIssue]⟩ := by decide
    rw [this]

/-- Claim C10 witness: the keyless `code_quality` request succeeds. -/
theorem claim_C10_witness :
    (run_task "t-10" c10Req "q" "e").1.status = "SUCCEEDED" ∧
    (run_task "t-10" c10Req "q" "e").1.facts = [docstringFact] :=
  ⟨(claim_C10 c10Req "t-10" "q" "e" (by decide)).1,
   (claim_C10 c10Req "t-10" "q" "e" (by decide)).2.2.2.2.1⟩

/-- Claim C1 as stated is false on the code: `c1Code` has exactly one
function (its single `def` line satisfies the claim's own description of
a function line), a blank line separates that `def` line from its
triple-double-quoted docstring line, and yet the docstring pattern
matches (finds one, not zero, matches) and the fact `{type: lint_issue,
data: {line: 1, message: "Functions may lack docstrings (heuristic)"}}`
is not emitted: the regex `\s+` after the pattern's `\n` also matches
the blank line's newline. -/
theorem claim_C1_counterexample :
    pySplitlines c1Code.data =
      ["def f():".data, [], "    \"\"\"doc\"\"\"".data] ∧
    specIsDefLine "def f():".data = true ∧
    ("    \"\"\"doc\"\"\"".data.takeWhile pyIsSpace ≠ [] ∧
      listStartsWith "\"\"\"".data ("    \"\"\"doc\"\"\"".data.dropWhile pyIsSpace) = true) ∧
    searchDocstring c1Code.data = true ∧
    countEq docstringFact (run_task "t-1" c1Req "q" "e").1.facts = 0 := by
  exact ⟨by decide, by decide, ⟨by decide, by decide⟩, by decide, by decide⟩

/-- Claim C1 (amended): for a `code_quality` submission whose code
contains functions with blank lines before their docstrings the warning
is not forced: the docstring pattern can still match across the blank
lines, and whenever it matches at least once the docstring-heuristic
fact is not emitted (it is emitted exactly when the pattern finds zero
matches). -/
theorem claim_C1_amended (req : TaskRequest) (tid q e : String)
    (h : req.capability = "code_quality")
    (hm : searchDocstring (reqCode req).data = true) :
    countEq docstringFact (run_task tid req q e).1.facts = 0 := by
  rw [run_task_code_quality req tid q e h]
  have h1 := countEq_docstring (reqCode req)
  rw [hm, if_pos rfl] at h1
  exact h1

/-- Claim C1 witness: the blank-line file matches the pattern, so its
run emits no docstring fact. -/
theorem claim_C1_witness :
    c1Req.capability = "code_quality" ∧
    searchDocstring (reqCode c1Req).data = true ∧
    countEq docstringFact (run_task "t-1w" c1Req "q" "e").1.facts = 0 :=
  ⟨rfl, by decide, claim_C1_amended c1Req "t-1w" "q" "e" rfl (by decide)⟩

end Server
